import Mathlib

/-!
Verification development for the adaptive sampling controller in
`libs/yocto/yocto_trace_adp.cpp` (namespace `yocto::trace_adp`).

Modelling conventions.

Numbers: C++ `float`/`double` values are modelled by `ℚ` (every finite float
is a rational; the transcendental library functions are handled below),
C++ `int` by `ℤ`, and the non-negative counters (`samples`, `hits`,
`sample_count`) by `ℕ`.

External collaborators: the path-tracing sampler, the wall clock, the scene,
and the per-pixel RNG are outside the translated unit.  They are bundled in a
`scenario` record: `sampler k` is the radiance/hit pair produced for the
k-th sample of the pixel (the pixel RNG is deterministic, so the sample
stream is a function of the per-pixel sample counter), `secondsAt c` is the
elapsed wall-clock seconds observed when `state.sample_count = c`, and
`envs_empty` is `scene->environments.empty()`.

Missing repository code: `math::rgb_to_srgb`, `math::log2` and `sqrt` live in
the math headers of the repository, which are not part of the translated
source.  Modelled from the spec: the spec treats them as the real sRGB
transfer function, binary logarithm and square root (sections 4.1 and 4.7:
the sRGB conversions of the two render cells, `b = sqrt(...)`,
`q = -log2(err)`).  They are carried as rational-valued scenario parameters
(`srgb`, `sqrtF`, `log2F`); concrete witnesses instantiate them with
rational approximations that are exact at every point where they are
evaluated.

State: `trace_sample` touches exactly one pixel of `state->pixels` plus the
cells `render[ij]`, `odd_render[ij]` and the shared scalars, so it is
modelled on a focused view (`tstate`) holding that pixel and the shared
fields.  Execution is sequential (the source guarantees each pixel is owned
by one worker; `stop` and `sample_count` are the only shared cells).
-/

namespace YoctoTraceAdp

/-- Model of `yocto::math::vec3f` (rational components). -/
structure vec3f where
  x : ℚ
  y : ℚ
  z : ℚ
deriving DecidableEq

/-- Model of `yocto::math::vec4f` (rational components). -/
structure vec4f where
  x : ℚ
  y : ℚ
  z : ℚ
  w : ℚ
deriving DecidableEq

/-- `zero3f`. -/
def zero3f : vec3f := ⟨0, 0, 0⟩

/-- `zero4f`. -/
def zero4f : vec4f := ⟨0, 0, 0, 0⟩

/-- Componentwise sum, as in `pixel.actual.radiance = {rad.x + radiance.x, ...}`. -/
def vadd (a b : vec3f) : vec3f := ⟨a.x + b.x, a.y + b.y, a.z + b.z⟩

/-- `radiance * s` (componentwise scale), as in `radiance * (clamp / max(radiance))`. -/
def vscale (s : ℚ) (a : vec3f) : vec3f := ⟨a.x * s, a.y * s, a.z * s⟩

/-- `math::max` of the three components of a `vec3f`. -/
def vmax (a : vec3f) : ℚ := max a.x (max a.y a.z)

/-- The fields of `trc::trace_params` read by this translation unit. -/
structure trace_params where
  tentfilter : Bool
  envhidden : Bool
  clamp : ℚ
  resolution : ℤ

/-- `adp_params` (configuration of the adaptive controller). -/
structure adp_params where
  trc_params : trace_params
  min_samples : ℤ
  sample_step : ℤ
  max_samples : ℤ
  desired_q : ℚ
  desired_spp : ℤ
  desired_seconds : ℤ
  step_q : ℚ
  batch_step : ℚ

/-- One accumulation partition of a pixel (`pixel.actual` or `pixel.odd`):
running radiance sum, hit count and sample count. -/
structure sample_accum where
  radiance : vec3f
  hits : ℕ
  samples : ℕ
deriving DecidableEq

/-- Model of the per-pixel accumulator `pixel` (the RNG field is part of the
scenario, see module comment; `time_in_sample` counts nanoseconds). -/
structure pixel where
  actual : sample_accum
  odd : sample_accum
  q : ℚ
  sample_budget : ℤ
  time_in_sample : ℕ
deriving DecidableEq

/-- A zero-initialised pixel, as produced by `state->pixels.assign(size, pixel{})`. -/
def pixel0 : pixel := ⟨⟨zero3f, 0, 0⟩, ⟨zero3f, 0, 0⟩, 0, 0, 0⟩

/-- Focused view of `state*` for a fixed pixel coordinate `ij`: the pixel
itself, the derived cells `render[ij]` and `odd_render[ij]`, and the shared
scalars read by `checkEnd` (`width`/`height` are `render.size()`). -/
structure tstate where
  px : pixel
  render_ij : vec4f
  odd_render_ij : vec4f
  sample_count : ℕ
  width : ℕ
  height : ℕ
  min_q : ℚ
  stop : Bool

/-- Scenario record: the external sampler, clock, scene flag, and the
rational models of the missing math functions (see module comment). -/
structure scenario where
  sampler : ℕ → vec3f × Bool
  secondsAt : ℕ → ℤ
  sampleTime : ℕ → ℕ
  envs_empty : Bool
  srgb : ℚ → ℚ
  sqrtF : ℚ → ℚ
  log2F : ℚ → ℚ

/-- `checkEnd(state, params)`: the termination oracle.  The elapsed seconds
(computed in the source from `system_clock::now() - start_time`) are passed
explicitly.  The four sequential `if`/`return true` blocks of the source
become nested `if`s; `sample_count / img_size` is C++ integer division of
non-negative ints, i.e. `ℕ` division. -/
def checkEnd (st : tstate) (params : adp_params) (seconds : ℤ) : Bool :=
  if st.stop = true then true
  else if 0 < params.desired_spp ∧
      params.desired_spp ≤ (↑(st.sample_count / (st.width * st.height)) : ℤ) then true
  else if 0 < params.desired_seconds ∧ params.desired_seconds ≤ seconds then true
  else if params.desired_spp = 0 ∧ params.desired_seconds = 0 ∧
      params.desired_q ≤ st.min_q then true
  else false

/-- The seconds- and quality-clauses of `checkEnd` (everything after the
`desired_spp` block), shared by the division-checked variant below. -/
def checkEnd_tail (st : tstate) (params : adp_params) (seconds : ℤ) : Bool :=
  if 0 < params.desired_seconds ∧ params.desired_seconds ≤ seconds then true
  else if params.desired_spp = 0 ∧ params.desired_seconds = 0 ∧
      params.desired_q ≤ st.min_q then true
  else false

/-- `checkEnd` with the C++ integer division made partial: dividing by a zero
`img_size` is undefined behaviour, modelled as `none`.  The division is only
reached when `desired_spp > 0` and the stop flag is clear, exactly as in the
source. -/
def checkEnd_div (st : tstate) (params : adp_params) (seconds : ℤ) : Option Bool :=
  if st.stop = true then some true
  else if 0 < params.desired_spp then
    if st.width * st.height = 0 then none
    else if params.desired_spp ≤ (↑(st.sample_count / (st.width * st.height)) : ℤ) then
      some true
    else some (checkEnd_tail st params seconds)
  else some (checkEnd_tail st params seconds)

/-- One iteration body of the sample loop in `trace_sample` (everything under
`if (!state->stop.load())`): draw the sample, apply environment-miss
handling, the non-finite guard and the clamp, then accumulate into `actual`
and, when the new sample count is odd, into `odd`.  The sampler result for
the k-th sample of the pixel is `sc.sampler k` with
`k = pixel.actual.samples` (the per-pixel RNG is deterministic, so the
stream is indexed by the sample counter); `sc.sampleTime k` is the measured
nanosecond duration.  The line
`if (!isfinite(radiance)) radiance = zero3f` is a no-op in the rational
model, where every value is finite. -/
def apply_sample (sc : scenario) (params : adp_params) (px : pixel) : pixel :=
  let res := sc.sampler px.actual.samples
  let rh : vec3f × Bool :=
    if res.2 = false then
      if params.trc_params.envhidden || sc.envs_empty then (zero3f, false)
      else (res.1, true)
    else res
  let radiance :=
    if params.trc_params.clamp ≤ vmax rh.1 then
      vscale (params.trc_params.clamp / vmax rh.1) rh.1
    else rh.1
  let hit := rh.2
  let actual' : sample_accum :=
    { radiance := vadd px.actual.radiance radiance
      hits := px.actual.hits + (if hit then 1 else 0)
      samples := px.actual.samples + 1 }
  let odd' : sample_accum :=
    if actual'.samples % 2 = 1 then
      { radiance := vadd px.odd.radiance radiance
        hits := px.odd.hits + (if hit then 1 else 0)
        samples := px.odd.samples + 1 }
    else px.odd
  { px with
    actual := actual'
    odd := odd'
    time_in_sample := px.time_in_sample + sc.sampleTime px.actual.samples }

/-- One iteration of the `for (s = 0; s < samples; s++)` loop in
`trace_sample`, without the trailing `checkEnd` test: the body runs only when
the stop flag is clear, and increments the shared `sample_count`. -/
def loop_body (sc : scenario) (params : adp_params) (st : tstate) : tstate :=
  if st.stop = false then
    { st with
      px := apply_sample sc params st.px
      sample_count := st.sample_count + 1 }
  else st

/-- The sample loop of `trace_sample`: `n` remaining iterations.  Each
iteration runs `loop_body` and then consults `checkEnd`; a firing oracle
returns early.  The boolean output is true when the loop ran to completion
(so control reaches the refresh code after the loop). -/
def trace_loop (sc : scenario) (params : adp_params) : ℕ → tstate → tstate × Bool
  | 0, st => (st, true)
  | n + 1, st =>
    if checkEnd (loop_body sc params st) params
        (sc.secondsAt (loop_body sc params st).sample_count) then
      (loop_body sc params st, false)
    else trace_loop sc params n (loop_body sc params st)

/-- The refreshed cell `state->render[ij]`: averaged radiance over hits (zero
when no hit) and hit fraction `hits / samples`.  With `samples = 0` the
source divides 0.0f by 0.0f in the fraction; the rational model returns 0
there (that cell value is never read by the translated unit). -/
def renderOf (a : sample_accum) : vec4f :=
  { x := if 0 < a.hits then a.radiance.x / (a.hits : ℚ) else 0
    y := if 0 < a.hits then a.radiance.y / (a.hits : ℚ) else 0
    z := if 0 < a.hits then a.radiance.z / (a.hits : ℚ) else 0
    w := (a.hits : ℚ) / (a.samples : ℚ) }

/-- The quality estimate written at the end of `trace_sample`: when the pixel
is below `max_samples`, convert the two refreshed cells to sRGB, form the
absolute channel difference `err_px` normalised by `sqrt` of the sRGB sum
(floored at 0.01 when that square root is below 0.0001), and set
`q = -log2(err_px)` clamped above at 10; at or above `max_samples`, set
`q = 10`.  For `err_px = 0` the source computes `-log2(0.0) = +inf`, which
the clamp maps to 10 (the scenario functions are rational-valued, so that
IEEE case is spelled out in `q_of_err`). -/
def err_of (sc : scenario) (rc oc : vec4f) : ℚ :=
  let s : vec3f := ⟨sc.srgb rc.x, sc.srgb rc.y, sc.srgb rc.z⟩
  let so : vec3f := ⟨sc.srgb oc.x, sc.srgb oc.y, sc.srgb oc.z⟩
  let d : ℚ := |s.x - so.x| + |s.y - so.y| + |s.z - so.z|
  let dv : ℚ := sc.sqrtF (s.x + s.y + s.z)
  if 1/10000 ≤ dv then d / dv else d / (1/100)

/-- `pixel.q = -math::log2(err_px); if (pixel.q > 10) pixel.q = 10;`. -/
def q_of_err (sc : scenario) (err_px : ℚ) : ℚ :=
  if err_px = 0 then 10
  else if 10 < -(sc.log2F err_px) then 10
  else -(sc.log2F err_px)

def compute_q (sc : scenario) (params : adp_params) (samples : ℕ)
    (rc oc : vec4f) : ℚ :=
  if (samples : ℤ) < params.max_samples then q_of_err sc (err_of sc rc oc)
  else 10

/-- The refresh code after the sample loop of `trace_sample`: rewrite
`render[ij]` and `odd_render[ij]` from the accumulator partitions, then
recompute `pixel.q` from the two refreshed cells. -/
def refresh (sc : scenario) (params : adp_params) (st : tstate) : tstate :=
  let rc := renderOf st.px.actual
  let oc := renderOf st.px.odd
  { st with
    render_ij := rc
    odd_render_ij := oc
    px := { st.px with q := compute_q sc params st.px.actual.samples rc oc } }

/-- The local `samples` of `trace_sample`: the requested count, capped so
that the pixel never exceeds `max_samples` (C++ sets
`samples = max_samples - pixel.actual.samples` when the request overshoots). -/
def eff_samples (params : adp_params) (num_samples : ℤ) (st : tstate) : ℤ :=
  if params.max_samples < (st.px.actual.samples : ℤ) + num_samples then
    params.max_samples - (st.px.actual.samples : ℤ)
  else num_samples

/-- `trace_sample(state, scene, camera, ij, num_samples, params)` together
with a ghost flag telling whether the sample loop ran to completion (when it
did, the refresh code executed; an early `return` from the loop skips it).
A negative effective `samples` runs the `for` loop zero times (`Int.toNat`). -/
def trace_sample_run (sc : scenario) (params : adp_params) (num_samples : ℤ)
    (st : tstate) : tstate × Bool :=
  if (trace_loop sc params (eff_samples params num_samples st).toNat st).2 then
    (refresh sc params (trace_loop sc params (eff_samples params num_samples st).toNat st).1,
      true)
  else trace_loop sc params (eff_samples params num_samples st).toNat st

/-- `trace_sample`, state part. -/
def trace_sample (sc : scenario) (params : adp_params) (num_samples : ℤ)
    (st : tstate) : tstate :=
  (trace_sample_run sc params num_samples st).1

/-- The `while` loop of the sample-limited `trace_until_quality` overload,
with explicit fuel (the C++ loop has no a-priori bound; `none` means the
fuel ran out before the loop exited).  The `ℤ` component is the final value
of the local counter `samples_shoot`; on the early `checkEnd` return path it
is the value the variable held at the `return`. -/
def tuq_loop (sc : scenario) (params : adp_params) (q : ℚ) (sample_limit : ℤ) :
    ℕ → ℤ → tstate → Option (tstate × ℤ)
  | 0, _, _ => none
  | fuel + 1, samples_shoot, st =>
    if st.px.q < q ∧ samples_shoot < sample_limit then
      if checkEnd (trace_sample sc params params.sample_step st) params
          (sc.secondsAt (trace_sample sc params params.sample_step st).sample_count) then
        some (trace_sample sc params params.sample_step st, samples_shoot)
      else
        tuq_loop sc params q sample_limit fuel (samples_shoot + params.sample_step)
          (trace_sample sc params params.sample_step st)
    else some (st, samples_shoot)

/-- `trace_until_quality(state, scene, camera, ij, params, q, sample_limit)`:
one unconditional `trace_sample` batch of `sample_step` samples, an early
return if `checkEnd` fires, then the `while (pixel.q < q && samples_shoot <
sample_limit)` loop; `samples_shoot` starts at `sample_step`.  On the first
early-return path the local `samples_shoot` was already initialised to
`sample_step`. -/
def trace_until_quality (sc : scenario) (params : adp_params) (q : ℚ)
    (sample_limit : ℤ) (fuel : ℕ) (st : tstate) : Option (tstate × ℤ) :=
  if checkEnd (trace_sample sc params params.sample_step st) params
      (sc.secondsAt (trace_sample sc params params.sample_step st).sample_count) then
    some (trace_sample sc params params.sample_step st, params.sample_step)
  else
    tuq_loop sc params q sample_limit fuel params.sample_step
      (trace_sample sc params params.sample_step st)

/-- `sample_spread`: a neighbourhood offset with its budget divisor. -/
structure sample_spread where
  x : ℤ
  y : ℤ
  div : ℚ
deriving DecidableEq

/-- The radius selection at the top of `create_sample_spread`. -/
def spread_radius (step_q : ℚ) : ℤ :=
  if step_q ≤ 49/100 then 8
  else if step_q ≤ 199/100 then 4
  else if step_q ≤ 399/100 then 2
  else 1

/-- `n` consecutive integers starting at `lo`. -/
def intRangeAux (lo : ℤ) : ℕ → List ℤ
  | 0 => []
  | n + 1 => lo :: intRangeAux (lo + 1) n

/-- The inclusive integer interval `[lo, hi]`, i.e. the values taken by the
loop counters `for (i = -radius; i <= radius; i++)`. -/
def intRange (lo hi : ℤ) : List ℤ := intRangeAux lo (hi + 1 - lo).toNat

/-- The double loop of `create_sample_spread` for a fixed radius: skip
`(0,0)`; at radius 1 append every offset; otherwise append exactly when
`sqrtf(i*i + j*j) <= radius`.  For integer `i`, `j` with `|i|, |j| <= 8` that
float comparison is exact and equivalent to `i*i + j*j <= radius*radius`
(the gap between `sqrt` of consecutive representable integers is far above
the rounding error of `sqrtf`), which is the form used here. -/
def spread_core (radius : ℤ) : List sample_spread :=
  (intRange (-radius) radius).flatMap (fun i =>
    (intRange (-radius) radius).filterMap (fun j =>
      if i = 0 ∧ j = 0 then none
      else if radius = 1 then some ⟨i, j, 2⟩
      else if i * i + j * j ≤ radius * radius then some ⟨i, j, 2⟩
      else none))

/-- `create_sample_spread(spread_vec, step_q)` (the cleared vector is the
returned list). -/
def create_sample_spread (step_q : ℚ) : List sample_spread :=
  spread_core (spread_radius step_q)

/-- C `round()`: round half away from zero, as used in the `image_size`
computation of `init_state`. -/
def roundQ (x : ℚ) : ℤ := if 0 ≤ x then ⌊x + 1/2⌋ else ⌈x - 1/2⌉

/-- The `image_size` computation at the top of `init_state`: the long axis
gets `params.resolution`, the other axis is rounded from the camera film
ratio. -/
def image_size (film_x film_y : ℚ) (resolution : ℤ) : ℤ × ℤ :=
  if film_y < film_x then
    (resolution, roundQ ((resolution : ℚ) * film_y / film_x))
  else
    (roundQ ((resolution : ℚ) * film_x / film_y), resolution)

/-- Global view of `state*` for `init_state`: the image size and the three
grids (stored row-major as lists).  `start_time` (wall clock) and the
per-pixel RNG seeding are external, see the module comment. -/
structure gstate where
  img_size : ℤ × ℤ
  pixels : List pixel
  render : List vec4f
  odd_render : List vec4f

/-- `init_state(state, scene, camera, params)`: compute the image size and,
unless the stop flag is set, assign the zeroed pixel grid and the two zeroed
render grids (negative sizes are clamped to zero by the container, hence
`Int.toNat`).  There is no validation of any kind: the function cannot
fail. -/
def init_state (stop : Bool) (g : gstate) (film_x film_y : ℚ)
    (resolution : ℤ) : gstate :=
  { img_size :=
      if stop then g.img_size else image_size film_x film_y resolution
    pixels :=
      if stop then g.pixels
      else
        List.replicate
          ((image_size film_x film_y resolution).1.toNat *
            (image_size film_x film_y resolution).2.toNat) pixel0
    render :=
      if stop then g.render
      else
        List.replicate
          ((image_size film_x film_y resolution).1.toNat *
            (image_size film_x film_y resolution).2.toNat) zero4f
    odd_render :=
      if stop then g.odd_render
      else
        List.replicate
          ((image_size film_x film_y resolution).1.toNat *
            (image_size film_x film_y resolution).2.toNat) zero4f }

/-- C++ `int(x)` on a float: truncation toward zero. -/
def cppTrunc (x : ℚ) : ℤ := if 0 ≤ x then ⌊x⌋ else ⌈x⌉

/-- The per-pixel body of `q_img`: `int p = int(px.q * step)` with
`step = 20.0f`, clamp `p` above at 255, then convert to `byte` (C++
`unsigned char` conversion reduces modulo 256). -/
def q_px_byte (q : ℚ) : ℕ :=
  ((if 255 < cppTrunc (q * 20) then 255 else cppTrunc (q * 20)) % 256).toNat

/-- `q_img(state)`: the grayscale intensity of every pixel (the source
stores `vec4b{p, p, p, 255}`; the shared intensity is modelled). -/
def q_img (qs : List ℚ) : List ℕ := qs.map q_px_byte

/-- Fueled integer Newton iteration for square roots (used by the rational
`sqrt` stand-in below). -/
def isqrtAux : ℕ → ℕ → ℕ → ℕ
  | 0, _, x => x
  | fuel + 1, n, x =>
    if (x + n / x) / 2 < x then isqrtAux fuel n ((x + n / x) / 2) else x

/-- `⌊√n⌋` by Newton iteration. -/
def isqrt (n : ℕ) : ℕ := if n ≤ 1 then n else isqrtAux n n n

/-- Modelled from the spec: a rational stand-in for the missing `sqrt`
(fixed point, two decimal digits).  It is exact at perfect squares of
hundredths — in particular at every point where a witness below evaluates
it — and elsewhere a lower approximation of the real square root. -/
def sqrtQ (x : ℚ) : ℚ :=
  if x ≤ 0 then 0 else (isqrt (⌊x * 10000⌋).toNat : ℚ) / 100

/-- Fueled floor of `log2` on `ℕ`. -/
def natLog2 : ℕ → ℕ → ℕ
  | 0, _ => 0
  | fuel + 1, n => if 2 ≤ n then natLog2 fuel (n / 2) + 1 else 0

/-- Modelled from the spec: a rational stand-in for the missing
`math::log2`, with integer precision.  It is exact at powers of two — in
particular at every point where a witness below evaluates it.  The argument
0 never reaches this function (`q_of_err` spells out the IEEE `-log2(0.0)`
case). -/
def log2Q (x : ℚ) : ℚ :=
  if 1 ≤ x then (natLog2 ⌊x⌋.toNat ⌊x⌋.toNat : ℚ)
  else if 0 < x then -(natLog2 ⌈1/x⌉.toNat ⌈1/x⌉.toNat : ℚ)
  else 0

/-- Parameters for witnesses: a pure quality run (`desired_spp = 0`,
`desired_seconds = 0`) whose quality target is far above the reachable
range, so the oracle never fires on a non-stopped state. -/
def params_off : adp_params :=
  { trc_params := { tentfilter := false, envhidden := false, clamp := 100, resolution := 4 }
    min_samples := 32
    sample_step := 8
    max_samples := 100
    desired_q := 1000
    desired_spp := 0
    desired_seconds := 0
    step_q := 1
    batch_step := 1 }

/-- `params_off` with a positive sample budget (for the `checkEnd`
witnesses). -/
def params_spp2 : adp_params :=
  { params_off with desired_spp := 2 }

/-- A freshly initialised focused state on a 4x4 image. -/
def st0 : tstate :=
  { px := pixel0
    render_ij := zero4f
    odd_render_ij := zero4f
    sample_count := 0
    width := 4
    height := 4
    min_q := 0
    stop := false }

/-- A focused state over an empty (0x0) render. -/
def st_empty : tstate :=
  { st0 with width := 0, height := 0 }

/-- A stopped state whose `render[ij]` cell holds a stale value. -/
def st_stop : tstate :=
  { st0 with stop := true, render_ij := ⟨7, 7, 7, 7⟩ }

/-- A scenario whose sampler always hits with radiance `(1,1,1)` (the
math-function slots are irrelevant for the structural witnesses that use
it). -/
def sc_const : scenario :=
  { sampler := fun _ => (⟨1, 1, 1⟩, true)
    secondsAt := fun _ => 0
    sampleTime := fun _ => 0
    envs_empty := true
    srgb := fun x => x
    sqrtF := fun x => x
    log2F := fun _ => 0 }

/-- The constant-radiance scenario with the rational math stand-ins (every
evaluation point is exact, see `sqrtQ` and `log2Q`): spec scenario S2. -/
def sc_flat : scenario :=
  { sc_const with sqrtF := sqrtQ, log2F := log2Q }

/-- A scenario whose first sample misses (the scene has no environments, so
the miss keeps `hit = false` with zero radiance) and whose second sample
hits with radiance `(4/3, 4/3, 4/3)`: it produces `err_px = 2` exactly,
where `sqrtQ` and `log2Q` agree with the real functions. -/
def sc_missfirst : scenario :=
  { sc_flat with
    sampler := fun k => if k = 0 then (⟨1, 1, 1⟩, false) else (⟨4/3, 4/3, 4/3⟩, true) }

/-- The oracle-off regime: a run with `desired_spp = 0`,
`desired_seconds = 0` and a quality target strictly above the current global
`min_q` never fires the termination oracle (and the stop flag is clear). -/
def oracle_off (params : adp_params) (st : tstate) : Prop :=
  st.stop = false ∧ params.desired_spp = 0 ∧ params.desired_seconds = 0 ∧
    ¬ params.desired_q ≤ st.min_q

/-- The per-pixel invariant of C3: `odd.samples` is `⌈actual.samples / 2⌉`
(in `ℕ`, `(a + 1) / 2`). -/
def half_inv (px : pixel) : Prop :=
  px.odd.samples = (px.actual.samples + 1) / 2

/-- One call to the sampler adapter in an arbitrary ambient context: the
scenario, the parameters, the requested batch size, and the values of every
state field other than the pixel itself (other workers may have changed the
shared fields between two calls on the same pixel). -/
structure adapter_call where
  sc : scenario
  params : adp_params
  num_samples : ℤ
  base : tstate

/-- The pixel produced by a sequence of `trace_sample` calls on one pixel,
starting from `px0`. -/
def run_calls (px0 : pixel) (calls : List adapter_call) : pixel :=
  calls.foldl
    (fun px c => (trace_sample c.sc c.params c.num_samples { c.base with px := px }).px)
    px0

/-- A junk global state (3x3, populated grids) used to show that
`init_state` overwrites rather than rejects. -/
def g_junk : gstate :=
  { img_size := (3, 3)
    pixels := List.replicate 9 pixel0
    render := List.replicate 9 zero4f
    odd_render := List.replicate 9 zero4f }

/-- C2: `checkEnd` returns true exactly when: the stop flag is set; or
`desired_spp > 0` and the integer quotient `sample_count / (width*height)`
is at least `desired_spp`; or `desired_seconds > 0` and the elapsed seconds
reach it; or `desired_spp = 0` and `desired_seconds = 0` and
`min_q ≥ desired_q`.  In particular, when `desired_spp` or `desired_seconds`
is nonzero, the quality clause alone never makes it return true.  The
hypothesis records that a non-empty image is required whenever the division
is reached (C++ division by zero is undefined; cf. `checkEnd_div_none`). -/
theorem checkEnd_characterization (st : tstate) (params : adp_params) (seconds : ℤ)
    (hdiv : 0 < params.desired_spp → 0 < st.width * st.height) :
    (checkEnd st params seconds = true ↔
      (st.stop = true
        ∨ (0 < params.desired_spp ∧
            params.desired_spp ≤ (↑(st.sample_count / (st.width * st.height)) : ℤ))
        ∨ (0 < params.desired_seconds ∧ params.desired_seconds ≤ seconds)
        ∨ (params.desired_spp = 0 ∧ params.desired_seconds = 0 ∧
            params.desired_q ≤ st.min_q)))
    ∧ ((params.desired_spp ≠ 0 ∨ params.desired_seconds ≠ 0) →
        st.stop = false →
        ¬(0 < params.desired_spp ∧
            params.desired_spp ≤ (↑(st.sample_count / (st.width * st.height)) : ℤ)) →
        ¬(0 < params.desired_seconds ∧ params.desired_seconds ≤ seconds) →
        checkEnd st params seconds = false) := by
  constructor
  · unfold checkEnd
    split_ifs <;> simp_all
  · intro hnz hstop hspp hsec
    unfold checkEnd
    rcases hnz with h | h <;> split_ifs <;> simp_all


theorem checkEnd_characterization_witness :
    (0 < params_spp2.desired_spp → 0 < st0.width * st0.height)
    ∧ ((checkEnd st0 params_spp2 0 = true ↔
        (st0.stop = true
          ∨ (0 < params_spp2.desired_spp ∧
              params_spp2.desired_spp ≤
                (↑(st0.sample_count / (st0.width * st0.height)) : ℤ))
          ∨ (0 < params_spp2.desired_seconds ∧ params_spp2.desired_seconds ≤ 0)
          ∨ (params_spp2.desired_spp = 0 ∧ params_spp2.desired_seconds = 0 ∧
              params_spp2.desired_q ≤ st0.min_q)))
      ∧ ((params_spp2.desired_spp ≠ 0 ∨ params_spp2.desired_seconds ≠ 0) →
          st0.stop = false →
          ¬(0 < params_spp2.desired_spp ∧
              params_spp2.desired_spp ≤
                (↑(st0.sample_count / (st0.width * st0.height)) : ℤ)) →
          ¬(0 < params_spp2.desired_seconds ∧ params_spp2.desired_seconds ≤ 0) →
          checkEnd st0 params_spp2 0 = false)) :=
  ⟨by decide, checkEnd_characterization st0 params_spp2 0 (by decide)⟩

/-- C10: when `desired_spp > 0` and the stop flag is clear, `checkEnd`
computes `sample_count / (width*height)` with no guard: on a zero-area
render the division divides by zero (undefined behaviour, modelled as
`none`), so a non-empty image is an unstated precondition of the oracle. -/
theorem checkEnd_zero_area_ub (st : tstate) (params : adp_params) (seconds : ℤ)
    (h1 : 0 < params.desired_spp) (h2 : st.stop = false)
    (h3 : st.width * st.height = 0) :
    checkEnd_div st params seconds = none := by
  simp [checkEnd_div, h1, h2, h3]


theorem checkEnd_zero_area_ub_witness :
    (0 < params_spp2.desired_spp ∧ st_empty.stop = false ∧
      st_empty.width * st_empty.height = 0)
    ∧ checkEnd_div st_empty params_spp2 0 = none :=
  ⟨by decide, checkEnd_zero_area_ub st_empty params_spp2 0 (by decide) (by decide) (by decide)⟩

/-! Basic structural lemmas about the sample loop. -/

theorem apply_sample_actual_samples (sc : scenario) (params : adp_params) (px : pixel) :
    (apply_sample sc params px).actual.samples = px.actual.samples + 1 := by
  simp [apply_sample]

theorem apply_sample_odd_samples (sc : scenario) (params : adp_params) (px : pixel) :
    (apply_sample sc params px).odd.samples =
      if (px.actual.samples + 1) % 2 = 1 then px.odd.samples + 1
      else px.odd.samples := by
  simp only [apply_sample]
  split <;> rfl

theorem apply_sample_q (sc : scenario) (params : adp_params) (px : pixel) :
    (apply_sample sc params px).q = px.q := by
  simp [apply_sample]

theorem loop_body_fields (sc : scenario) (params : adp_params) (st : tstate) :
    (loop_body sc params st).stop = st.stop
    ∧ (loop_body sc params st).min_q = st.min_q
    ∧ (loop_body sc params st).width = st.width
    ∧ (loop_body sc params st).height = st.height
    ∧ (loop_body sc params st).render_ij = st.render_ij
    ∧ (loop_body sc params st).odd_render_ij = st.odd_render_ij
    ∧ (loop_body sc params st).px.q = st.px.q := by
  unfold loop_body
  split <;> simp [apply_sample_q]

theorem loop_body_samples (sc : scenario) (params : adp_params) (st : tstate) :
    (loop_body sc params st).px.actual.samples =
      st.px.actual.samples + (if st.stop = false then 1 else 0) := by
  unfold loop_body
  split <;> simp_all [apply_sample_actual_samples]

theorem trace_loop_fields (sc : scenario) (params : adp_params) (n : ℕ) (st : tstate) :
    ((trace_loop sc params n st).1.stop = st.stop
      ∧ (trace_loop sc params n st).1.min_q = st.min_q)
    ∧ ((trace_loop sc params n st).1.render_ij = st.render_ij
      ∧ (trace_loop sc params n st).1.odd_render_ij = st.odd_render_ij
      ∧ (trace_loop sc params n st).1.px.q = st.px.q) := by
  induction n generalizing st with
  | zero => simp [trace_loop]
  | succ n ih =>
    have hb := loop_body_fields sc params st
    unfold trace_loop
    split
    · simp_all
    · have := ih (loop_body sc params st)
      simp_all

theorem trace_loop_samples_le (sc : scenario) (params : adp_params) (n : ℕ) (st : tstate) :
    (trace_loop sc params n st).1.px.actual.samples ≤ st.px.actual.samples + n := by
  induction n generalizing st with
  | zero => simp [trace_loop]
  | succ n ih =>
    have hb := loop_body_samples sc params st
    unfold trace_loop
    split
    · dsimp only
      split at hb <;> omega
    · have := ih (loop_body sc params st)
      split at hb <;> omega

theorem trace_loop_samples_complete (sc : scenario) (params : adp_params) (n : ℕ)
    (st : tstate) (hstop : st.stop = false)
    (hc : (trace_loop sc params n st).2 = true) :
    (trace_loop sc params n st).1.px.actual.samples = st.px.actual.samples + n := by
  induction n generalizing st with
  | zero => simp [trace_loop]
  | succ n ih =>
    have hb := loop_body_samples sc params st
    have hs : (loop_body sc params st).stop = st.stop := (loop_body_fields sc params st).1
    rw [hstop] at hb
    unfold trace_loop at hc ⊢
    split at hc
    · simp_all
    · have := ih (loop_body sc params st) (by rw [hs, hstop]) (by simpa using hc)
      simp_all
      omega


theorem checkEnd_oracle_off (params : adp_params) (st : tstate) (seconds : ℤ)
    (h : oracle_off params st) : checkEnd st params seconds = false := by
  obtain ⟨h1, h2, h3, h4⟩ := h
  simp [checkEnd, h1, h2, h3, h4]

theorem oracle_off_loop_body (sc : scenario) (params : adp_params) (st : tstate)
    (h : oracle_off params st) : oracle_off params (loop_body sc params st) := by
  obtain ⟨h1, h2, h3, h4⟩ := h
  have hb := loop_body_fields sc params st
  exact ⟨by simp_all, h2, h3, by simp_all⟩

theorem trace_loop_oracle_off (sc : scenario) (params : adp_params) (n : ℕ) (st : tstate)
    (h : oracle_off params st) :
    (trace_loop sc params n st).2 = true
    ∧ oracle_off params (trace_loop sc params n st).1 := by
  induction n generalizing st with
  | zero => simpa [trace_loop] using h
  | succ n ih =>
    have h' := oracle_off_loop_body sc params st h
    have hce := checkEnd_oracle_off params (loop_body sc params st)
      (sc.secondsAt (loop_body sc params st).sample_count) h'
    unfold trace_loop
    split
    · simp_all
    · exact ih (loop_body sc params st) h'

/-! Refresh projections. -/

theorem refresh_px_actual (sc : scenario) (params : adp_params) (st : tstate) :
    (refresh sc params st).px.actual = st.px.actual := rfl

theorem refresh_px_odd (sc : scenario) (params : adp_params) (st : tstate) :
    (refresh sc params st).px.odd = st.px.odd := rfl

theorem refresh_stop (sc : scenario) (params : adp_params) (st : tstate) :
    (refresh sc params st).stop = st.stop := rfl

theorem refresh_min_q (sc : scenario) (params : adp_params) (st : tstate) :
    (refresh sc params st).min_q = st.min_q := rfl

/-! C3: the odd partition counts exactly the odd-indexed samples, so its
sample counter is always the round-up half of the aggregate one. -/


theorem apply_sample_half (sc : scenario) (params : adp_params) (px : pixel)
    (h : half_inv px) : half_inv (apply_sample sc params px) := by
  unfold half_inv at h ⊢
  rw [apply_sample_actual_samples, apply_sample_odd_samples]
  split <;> omega

theorem loop_body_half (sc : scenario) (params : adp_params) (st : tstate)
    (h : half_inv st.px) : half_inv (loop_body sc params st).px := by
  unfold loop_body
  split
  · exact apply_sample_half sc params st.px h
  · exact h

theorem trace_loop_half (sc : scenario) (params : adp_params) (n : ℕ) (st : tstate)
    (h : half_inv st.px) : half_inv (trace_loop sc params n st).1.px := by
  induction n generalizing st with
  | zero => simpa [trace_loop] using h
  | succ n ih =>
    unfold trace_loop
    split
    · exact loop_body_half sc params st h
    · exact ih (loop_body sc params st) (loop_body_half sc params st h)

theorem trace_sample_half (sc : scenario) (params : adp_params) (num_samples : ℤ)
    (st : tstate) (h : half_inv st.px) :
    half_inv (trace_sample sc params num_samples st).px := by
  have hl := trace_loop_half sc params (eff_samples params num_samples st).toNat st h
  unfold trace_sample trace_sample_run
  split
  · unfold half_inv at hl ⊢
    rw [refresh_px_actual, refresh_px_odd]
    exact hl
  · exact hl


theorem run_calls_half (calls : List adapter_call) (px : pixel) (h : half_inv px) :
    half_inv (run_calls px calls) := by
  induction calls generalizing px with
  | nil => exact h
  | cons c cs ih =>
    rw [run_calls, List.foldl_cons]
    exact ih _ (trace_sample_half c.sc c.params c.num_samples { c.base with px := px } h)

/-- C3: for every pixel, after any sequence of `trace_sample` calls starting
from the zeroed pixel (with arbitrary shared state and parameters at each
call), `odd.samples = ⌈actual.samples / 2⌉` — written `(actual.samples+1)/2`
in `ℕ` — and `actual.samples ≥ odd.samples ≥ 0` (the lower bound is inherent
to `ℕ`). -/
theorem odd_samples_invariant (calls : List adapter_call) :
    (run_calls pixel0 calls).odd.samples =
      ((run_calls pixel0 calls).actual.samples + 1) / 2
    ∧ (run_calls pixel0 calls).odd.samples ≤ (run_calls pixel0 calls).actual.samples := by
  have h := run_calls_half calls pixel0 (by simp [half_inv, pixel0])
  unfold half_inv at h
  exact ⟨h, by omega⟩

/-! C4: the effective batch size. -/

theorem eff_samples_min (params : adp_params) (num_samples : ℤ) (st : tstate) :
    eff_samples params num_samples st =
      min num_samples (params.max_samples - (st.px.actual.samples : ℤ)) := by
  unfold eff_samples
  split <;> omega

/-- C4: under the precondition `actual.samples ≤ max_samples`, a call
`trace_sample(..., n, params)` takes at most
`min n (max_samples - actual.samples)` new samples — exactly that many when
the stop flag is clear and the sample loop runs to completion (the
termination oracle never fired) — so `actual.samples ≤ max_samples` is
preserved by every call. -/
theorem trace_sample_effective_batch (sc : scenario) (params : adp_params)
    (num_samples : ℤ) (st : tstate)
    (h0 : 0 ≤ num_samples)
    (h1 : (st.px.actual.samples : ℤ) ≤ params.max_samples) :
    (((trace_sample sc params num_samples st).px.actual.samples : ℤ)
        ≤ (st.px.actual.samples : ℤ)
          + min num_samples (params.max_samples - (st.px.actual.samples : ℤ))
      ∧ ((trace_sample sc params num_samples st).px.actual.samples : ℤ)
          ≤ params.max_samples)
    ∧ (st.stop = false → (trace_sample_run sc params num_samples st).2 = true →
        ((trace_sample sc params num_samples st).px.actual.samples : ℤ)
          = (st.px.actual.samples : ℤ)
            + min num_samples (params.max_samples - (st.px.actual.samples : ℤ))) := by
  have hmin := eff_samples_min params num_samples st
  have hle := trace_loop_samples_le sc params (eff_samples params num_samples st).toNat st
  have heq : ∀ hstop : st.stop = false,
      (trace_loop sc params (eff_samples params num_samples st).toNat st).2 = true →
      (trace_loop sc params (eff_samples params num_samples st).toNat st).1.px.actual.samples
        = st.px.actual.samples + (eff_samples params num_samples st).toNat :=
    fun hstop hc =>
      trace_loop_samples_complete sc params _ st hstop hc
  constructor
  · constructor
    · unfold trace_sample trace_sample_run
      split
      · rw [refresh_px_actual]
        omega
      · omega
    · unfold trace_sample trace_sample_run
      split
      · rw [refresh_px_actual]
        omega
      · omega
  · intro hstop hc
    unfold trace_sample
    unfold trace_sample_run at hc ⊢
    split at hc
    · next hcl =>
      have := heq hstop hcl
      simp only [hcl, if_true]
      rw [refresh_px_actual]
      omega
    · simp_all


theorem trace_sample_effective_batch_witness :
    ((0 : ℤ) ≤ 3 ∧ ((st0.px.actual.samples : ℤ) ≤ params_off.max_samples))
    ∧ ((((trace_sample sc_const params_off 3 st0).px.actual.samples : ℤ)
          ≤ (st0.px.actual.samples : ℤ)
            + min 3 (params_off.max_samples - (st0.px.actual.samples : ℤ))
        ∧ ((trace_sample sc_const params_off 3 st0).px.actual.samples : ℤ)
          ≤ params_off.max_samples)
      ∧ (st0.stop = false → (trace_sample_run sc_const params_off 3 st0).2 = true →
          ((trace_sample sc_const params_off 3 st0).px.actual.samples : ℤ)
            = (st0.px.actual.samples : ℤ)
              + min 3 (params_off.max_samples - (st0.px.actual.samples : ℤ)))) :=
  ⟨⟨by decide, by decide⟩,
    trace_sample_effective_batch sc_const params_off 3 st0 (by decide) (by decide)⟩

/-! C1: bounds of the per-pixel quality estimate. -/

theorem refresh_px_q (sc : scenario) (params : adp_params) (st : tstate) :
    (refresh sc params st).px.q =
      compute_q sc params st.px.actual.samples (renderOf st.px.actual)
        (renderOf st.px.odd) := rfl

theorem q_of_err_le_ten (sc : scenario) (err_px : ℚ) : q_of_err sc err_px ≤ 10 := by
  unfold q_of_err
  split_ifs with h1 h2
  · norm_num
  · norm_num
  · push_neg at h2
    exact h2

theorem compute_q_le_ten (sc : scenario) (params : adp_params) (samples : ℕ)
    (rc oc : vec4f) : compute_q sc params samples rc oc ≤ 10 := by
  unfold compute_q
  split_ifs <;> first | exact q_of_err_le_ten _ _ | norm_num

theorem compute_q_at_max (sc : scenario) (params : adp_params) (samples : ℕ)
    (rc oc : vec4f) (h : params.max_samples ≤ (samples : ℤ)) :
    compute_q sc params samples rc oc = 10 := by
  unfold compute_q
  rw [if_neg (by omega)]

/-- C1 (amended): from any state whose pixel satisfies `q ≤ 10`, every
`trace_sample` call preserves `q ≤ 10`; and whenever the sample loop runs to
completion (so the quality refresh executes), a pixel at or above
`max_samples` gets `q = 10`.  The claimed lower bound `0 ≤ q` and the
converse direction of the `q = 10` characterisation are false, see
`pixel_q_bounds_counterexample`. -/
theorem pixel_q_upper_bound (sc : scenario) (params : adp_params)
    (num_samples : ℤ) (st : tstate) (h : st.px.q ≤ 10) :
    (trace_sample sc params num_samples st).px.q ≤ 10
    ∧ ((trace_sample_run sc params num_samples st).2 = true →
        params.max_samples ≤ ((trace_sample sc params num_samples st).px.actual.samples : ℤ) →
        (trace_sample sc params num_samples st).px.q = 10) := by
  have hq := (trace_loop_fields sc params (eff_samples params num_samples st).toNat st).2.2.2
  constructor
  · unfold trace_sample trace_sample_run
    split
    · rw [refresh_px_q]
      exact compute_q_le_ten _ _ _ _ _
    · rw [hq]
      exact h

  · intro hc hmax
    unfold trace_sample at hmax ⊢
    unfold trace_sample_run at hc hmax ⊢
    split at hc
    · next hcl =>
      simp only [hcl, if_true] at hmax ⊢
      rw [refresh_px_actual] at hmax
      rw [refresh_px_q]
      exact compute_q_at_max _ _ _ _ _ hmax
    · simp_all

theorem pixel_q_upper_bound_witness :
    st0.px.q ≤ 10
    ∧ ((trace_sample sc_const params_off 2 st0).px.q ≤ 10
      ∧ ((trace_sample_run sc_const params_off 2 st0).2 = true →
          params_off.max_samples ≤
            ((trace_sample sc_const params_off 2 st0).px.actual.samples : ℤ) →
          (trace_sample sc_const params_off 2 st0).px.q = 10)) :=
  ⟨by decide, pixel_q_upper_bound sc_const params_off 2 st0 (by decide)⟩

/-- C1 counterexample.  Two concrete two-sample batches from a fresh pixel
with `max_samples = 100` refute the claimed invariant
`0 ≤ q ≤ 10 ∧ (q = 10 ↔ samples = max_samples)`:
with a constant hitting sampler the odd and aggregate renders agree, so
`err_px = 0` and `q` is clamped to 10 at 2 samples (spec scenario S2) — the
"only if" direction fails; with a missing first sample and a bright second
one, `err_px = 2` exactly and `q = -log2 2 = -1 < 0` — the lower bound
fails.  Every `sqrtQ`/`log2Q` evaluation point here (`sqrt 4 = 2`,
`log2 2 = 1`) is exact. -/
theorem pixel_q_bounds_counterexample :
    ((trace_sample sc_flat params_off 2 st0).px.q = 10
      ∧ ((trace_sample sc_flat params_off 2 st0).px.actual.samples : ℤ)
          < params_off.max_samples)
    ∧ (trace_sample sc_missfirst params_off 2 st0).px.q = -1 := by
  constructor
  · constructor
    · norm_num [trace_sample, trace_sample_run, eff_samples, trace_loop, loop_body,
        apply_sample, checkEnd, refresh, renderOf, compute_q, q_of_err, err_of,
        params_off, st0, sc_const, sc_flat, vmax, vadd, vscale, zero3f, zero4f,
        pixel0, sqrtQ, Int.toNat_ofNat, (by decide : isqrt 30000 = 173)]
    · norm_num [trace_sample, trace_sample_run, eff_samples, trace_loop, loop_body,
        apply_sample, checkEnd, refresh, renderOf, params_off, st0, sc_const,
        sc_flat, vmax, vadd, vscale, zero3f, zero4f, pixel0]
  · norm_num [trace_sample, trace_sample_run, eff_samples, trace_loop, loop_body,
      apply_sample, checkEnd, refresh, renderOf, compute_q, q_of_err, err_of,
      params_off, st0, sc_const, sc_flat, sc_missfirst, vmax, vadd, vscale,
      zero3f, zero4f, pixel0, sqrtQ, log2Q, abs_of_nonneg,
      (by decide : Int.toNat 40000 = 40000), (by decide : Int.toNat 2 = 2),
      (by decide : isqrt 40000 = 200), (by decide : natLog2 2 2 = 1)]

/-- C5 (amended): the refresh of `render[ij]`, `odd_render[ij]` and `q` is
the postcondition of a `trace_sample` batch exactly when the sample loop ran
to completion; in particular it is unconditional whenever the stop flag is
clear and no termination condition is active (the quality clause disabled by
an unreached `desired_q`).  When `checkEnd` fires during the batch the
function returns early and the cells keep their previous values, see
`refresh_not_unconditional`. -/
theorem refresh_when_no_termination (sc : scenario) (params : adp_params)
    (num_samples : ℤ) (st : tstate)
    (h1 : st.stop = false) (h2 : params.desired_spp = 0)
    (h3 : params.desired_seconds = 0) (h4 : ¬ params.desired_q ≤ st.min_q) :
    (trace_sample_run sc params num_samples st).2 = true
    ∧ (trace_sample sc params num_samples st).render_ij
        = renderOf (trace_sample sc params num_samples st).px.actual
    ∧ (trace_sample sc params num_samples st).odd_render_ij
        = renderOf (trace_sample sc params num_samples st).px.odd
    ∧ (trace_sample sc params num_samples st).px.q
        = compute_q sc params (trace_sample sc params num_samples st).px.actual.samples
            (trace_sample sc params num_samples st).render_ij
            (trace_sample sc params num_samples st).odd_render_ij := by
  have hoff := trace_loop_oracle_off sc params (eff_samples params num_samples st).toNat st
    ⟨h1, h2, h3, h4⟩
  refine ⟨?_, ?_⟩
  · unfold trace_sample_run
    rw [hoff.1]
    simp
  · unfold trace_sample trace_sample_run
    rw [hoff.1]
    simp only [if_true]
    refine ⟨rfl, rfl, ?_⟩
    rw [refresh_px_q, refresh_px_actual]
    rfl

theorem refresh_when_no_termination_witness :
    (st0.stop = false ∧ params_off.desired_spp = 0 ∧ params_off.desired_seconds = 0
      ∧ ¬ params_off.desired_q ≤ st0.min_q)
    ∧ ((trace_sample_run sc_const params_off 2 st0).2 = true
      ∧ (trace_sample sc_const params_off 2 st0).render_ij
          = renderOf (trace_sample sc_const params_off 2 st0).px.actual
      ∧ (trace_sample sc_const params_off 2 st0).odd_render_ij
          = renderOf (trace_sample sc_const params_off 2 st0).px.odd
      ∧ (trace_sample sc_const params_off 2 st0).px.q
          = compute_q sc_const params_off
              (trace_sample sc_const params_off 2 st0).px.actual.samples
              (trace_sample sc_const params_off 2 st0).render_ij
              (trace_sample sc_const params_off 2 st0).odd_render_ij) :=
  ⟨⟨by decide, by decide, by decide, by decide⟩,
    refresh_when_no_termination sc_const params_off 2 st0
      (by decide) (by decide) (by decide) (by decide)⟩

/-- C5 counterexample.  A batch of one requested sample on a stopped state:
the loop iteration skips sampling, `checkEnd` fires (stop flag), and
`trace_sample` returns before the refresh code, leaving the stale
`render[ij]` cell `(7,7,7,7)` in place instead of the value
`renderOf` would recompute from the (zeroed) accumulator.  This refutes the
claim that the refresh is an unconditional postcondition of each batch. -/
theorem refresh_not_unconditional :
    (trace_sample sc_const params_off 1 st_stop).render_ij = ⟨7, 7, 7, 7⟩
    ∧ renderOf (trace_sample sc_const params_off 1 st_stop).px.actual
        ≠ (trace_sample sc_const params_off 1 st_stop).render_ij := by
  constructor
  · norm_num [trace_sample, trace_sample_run, eff_samples, trace_loop, loop_body,
      checkEnd, params_off, st0, st_stop, pixel0]
  · norm_num [trace_sample, trace_sample_run, eff_samples, trace_loop, loop_body,
      checkEnd, renderOf, params_off, st0, st_stop, pixel0, zero3f]

/-! C6: the sample-spread table. -/

theorem mem_intRangeAux (n : ℕ) (lo x : ℤ) :
    x ∈ intRangeAux lo n ↔ lo ≤ x ∧ x < lo + n := by
  induction n generalizing lo with
  | zero =>
    simp only [intRangeAux, List.not_mem_nil, false_iff]
    omega
  | succ n ih =>
    simp only [intRangeAux, List.mem_cons, ih]
    omega

theorem mem_intRange (lo hi x : ℤ) : x ∈ intRange lo hi ↔ lo ≤ x ∧ x ≤ hi := by
  unfold intRange
  rw [mem_intRangeAux]
  omega

theorem mem_spread_core (r : ℤ) (e : sample_spread) :
    e ∈ spread_core r ↔
      (¬(e.x = 0 ∧ e.y = 0)
        ∧ (-r ≤ e.x ∧ e.x ≤ r) ∧ (-r ≤ e.y ∧ e.y ≤ r)
        ∧ (r = 1 ∨ e.x * e.x + e.y * e.y ≤ r * r)
        ∧ e.div = 2) := by
  obtain ⟨ex, ey, ed⟩ := e
  unfold spread_core
  simp only [List.mem_flatMap, List.mem_filterMap, mem_intRange]
  constructor
  · rintro ⟨i, hi, j, hj, hf⟩
    split_ifs at hf with h0 h1 h2
    · rw [Option.some.injEq, sample_spread.mk.injEq] at hf
      obtain ⟨rfl, rfl, rfl⟩ := hf
      exact ⟨h0, hi, hj, Or.inl h1, rfl⟩
    · rw [Option.some.injEq, sample_spread.mk.injEq] at hf
      obtain ⟨rfl, rfl, rfl⟩ := hf
      exact ⟨h0, hi, hj, Or.inr h2, rfl⟩
  · rintro ⟨hne, hx, hy, hd, rfl⟩
    refine ⟨ex, hx, ey, hy, ?_⟩
    rw [if_neg hne]
    by_cases hr : r = 1
    · rw [if_pos hr]
    · rw [if_neg hr, if_pos (hd.resolve_left hr)]

/-- C6: `create_sample_spread(vec, step_q)` produces exactly the nonzero
integer offsets `(i, j)` with `-r ≤ i, j ≤ r` lying within Euclidean
distance `r` of the origin (all such offsets unconditionally when `r = 1`;
the distance test is stated squared, `i² + j² ≤ r²`), each with `div = 2`,
where `r = spread_radius step_q` is 8 for `step_q ≤ 0.49`, 4 for
`step_q ≤ 1.99`, 2 for `step_q ≤ 3.99` and 1 otherwise; in particular at
`step_q = 2.0` the radius is 2 and the table has exactly 12 entries. -/
theorem create_sample_spread_spec :
    (∀ (step_q : ℚ) (e : sample_spread),
        e ∈ create_sample_spread step_q ↔
          (¬(e.x = 0 ∧ e.y = 0)
            ∧ (-(spread_radius step_q) ≤ e.x ∧ e.x ≤ spread_radius step_q)
            ∧ (-(spread_radius step_q) ≤ e.y ∧ e.y ≤ spread_radius step_q)
            ∧ (spread_radius step_q = 1
                ∨ e.x * e.x + e.y * e.y ≤ spread_radius step_q * spread_radius step_q)
            ∧ e.div = 2))
    ∧ spread_radius 2 = 2
    ∧ (create_sample_spread 2).length = 12 := by
  have hr : spread_radius 2 = 2 := by norm_num [spread_radius]
  refine ⟨fun step_q e => mem_spread_core (spread_radius step_q) e, hr, ?_⟩
  show (spread_core (spread_radius 2)).length = 12
  rw [hr]
  decide

/-! C7: `init_state` does not validate the image size. -/

/-- C7 (amended): `init_state` performs no zero-area rejection — it cannot
fail at all.  For every input whose computed image size has a non-positive
width or height, it returns normally with empty pixel and render grids.
The claimed rejection does not exist, see
`init_state_zero_area_counterexample`. -/
theorem init_state_zero_area_empty_grid (g : gstate) (film_x film_y : ℚ)
    (resolution : ℤ)
    (h : (image_size film_x film_y resolution).1 ≤ 0
      ∨ (image_size film_x film_y resolution).2 ≤ 0) :
    (init_state false g film_x film_y resolution).pixels = []
    ∧ (init_state false g film_x film_y resolution).render = []
    ∧ (init_state false g film_x film_y resolution).odd_render = [] := by
  have hz : (image_size film_x film_y resolution).1.toNat *
      (image_size film_x film_y resolution).2.toNat = 0 := by
    rcases h with h | h <;> simp [Int.toNat_of_nonpos h]
  unfold init_state
  simp [hz]

theorem init_state_zero_area_empty_grid_witness :
    ((image_size 2 1 0).1 ≤ 0 ∨ (image_size 2 1 0).2 ≤ 0)
    ∧ ((init_state false g_junk 2 1 0).pixels = []
      ∧ (init_state false g_junk 2 1 0).render = []
      ∧ (init_state false g_junk 2 1 0).odd_render = []) :=
  ⟨Or.inl (by decide),
    init_state_zero_area_empty_grid g_junk 2 1 0 (Or.inl (by decide))⟩

/-- C7 counterexample.  `init_state` on a square film with `resolution = 0`
(a zero-area image): it does not fail — there is no failure path in the
function — and it happily installs the empty pixel grid over the previous
(populated) state, exactly what the claim says must not happen. -/
theorem init_state_zero_area_counterexample :
    (init_state false g_junk 1 1 0).pixels = []
    ∧ (init_state false g_junk 1 1 0).img_size = (0, 0) := by
  norm_num [init_state, image_size, roundQ, g_junk]

/-! C8: the quality map `q_img`. -/

/-- C8 (amended): each `q_img` intensity is
`(min 255 (trunc (q * 20))) mod 256` where `trunc` rounds toward zero (the
C++ `int` conversion) — not `min 255 (round (q * 20))`: the scale is
truncated rather than rounded to nearest, and a negative `q` wraps modulo
256 instead of clamping at 0.  The intensity never exceeds 255. -/
theorem q_px_byte_spec (q : ℚ) :
    q_px_byte q ≤ 255
    ∧ (q_px_byte q : ℤ) = (min 255 (cppTrunc (q * 20))) % 256 := by
  unfold q_px_byte
  constructor
  · split_ifs <;> omega
  · split_ifs <;> omega

/-- C8 counterexample.  At `q = 3/40` the code stores `int(1.5) = 1` while
`min(255, round(1.5)) = 2`; at `q = -1/2` the code stores
`byte(-10) = 246` while `min(255, round(-10)) = -10` (and the claim asserts
the intensity formula holds for negative `q` as well). -/
theorem q_img_rounding_counterexample :
    q_img [3/40, -1/2] = [1, 246]
    ∧ roundQ ((3/40 : ℚ) * 20) = 2
    ∧ roundQ ((-1/2 : ℚ) * 20) = -10
    ∧ (1 : ℤ) ≠ min 255 2
    ∧ (246 : ℤ) ≠ min 255 (-10) := by
  refine ⟨?_, ?_, ?_, by decide, by decide⟩
  · norm_num [q_img, q_px_byte, cppTrunc, Int.ceil_neg,
      (by decide : ((1 : ℤ) % 256).toNat = 1),
      (by decide : (((-10) : ℤ) % 256).toNat = 246),
      (by decide : Int.toNat 246 = 246), (by decide : Int.toNat 1 = 1)]
  · norm_num [roundQ]
  · norm_num [roundQ, Int.ceil_neg]

/-! C9: the sample-limited `trace_until_quality` always issues the initial
chunk first and counts entire chunks against the limit. -/

/-- `trace_sample` in the oracle-off regime with a non-overshooting request:
the full batch is taken, the refresh runs (so `q ≤ 10` afterwards), and the
oracle-off regime persists. -/
theorem trace_sample_oracle_off_full (sc : scenario) (params : adp_params)
    (num_samples : ℤ) (st : tstate)
    (h : oracle_off params st) (h0 : 0 ≤ num_samples)
    (hcap : (st.px.actual.samples : ℤ) + num_samples ≤ params.max_samples) :
    ((trace_sample sc params num_samples st).px.actual.samples : ℤ)
        = (st.px.actual.samples : ℤ) + num_samples
    ∧ oracle_off params (trace_sample sc params num_samples st)
    ∧ (trace_sample sc params num_samples st).px.q ≤ 10 := by
  have heff : eff_samples params num_samples st = num_samples := by
    unfold eff_samples
    split <;> omega
  have hloop := trace_loop_oracle_off sc params (eff_samples params num_samples st).toNat st h
  have hsam := trace_loop_samples_complete sc params
    (eff_samples params num_samples st).toNat st h.1 hloop.1
  unfold trace_sample trace_sample_run
  rw [hloop.1]
  simp only [if_true]
  obtain ⟨hstop', hspp', hsec', hq'⟩ := hloop.2
  refine ⟨?_, ⟨?_, hspp', hsec', ?_⟩, ?_⟩
  · rw [refresh_px_actual, hsam, heff]
    omega
  · rw [refresh_stop]
    exact hstop'
  · rw [refresh_min_q]
    exact hq'
  · rw [refresh_px_q]
    exact compute_q_le_ten _ _ _ _ _

/-- The `while` loop of the sample-limited `trace_until_quality`, in the
oracle-off regime with an unreachable quality target: with `samples_shoot`
currently at `shoot` and exactly `K` more chunks needed to reach
`sample_limit`, the loop runs `K` batches of `sample_step` samples and
returns with `samples_shoot = shoot + sample_step * K`. -/
theorem tuq_loop_spec (sc : scenario) (params : adp_params) (q : ℚ)
    (sample_limit : ℤ) (hstep : 0 < params.sample_step) (htarget : 10 < q) :
    ∀ (K fuel : ℕ) (shoot : ℤ) (st : tstate),
    oracle_off params st → st.px.q ≤ 10 →
    sample_limit ≤ shoot + params.sample_step * K →
    (∀ j : ℕ, j < K → shoot + params.sample_step * j < sample_limit) →
    (st.px.actual.samples : ℤ) + params.sample_step * K ≤ params.max_samples →
    K + 1 ≤ fuel →
    ∃ st', tuq_loop sc params q sample_limit fuel shoot st
        = some (st', shoot + params.sample_step * K)
      ∧ (st'.px.actual.samples : ℤ)
        = (st.px.actual.samples : ℤ) + params.sample_step * K := by
  intro K
  induction K with
  | zero =>
    intro fuel shoot st hoff hq h1 h2 hcap hfuel
    obtain ⟨fuel, rfl⟩ : ∃ f, fuel = f + 1 := ⟨fuel - 1, by omega⟩
    refine ⟨st, ?_, by simp⟩
    unfold tuq_loop
    rw [if_neg (by push_neg; intro _; simpa using h1)]
    simp
  | succ k ih =>
    intro fuel shoot st hoff hq h1 h2 hcap hfuel
    obtain ⟨fuel, rfl⟩ : ∃ f, fuel = f + 1 := ⟨fuel - 1, by omega⟩
    have hcast : params.sample_step * ((k : ℤ) + 1)
        = params.sample_step * (k : ℤ) + params.sample_step := by ring
    have hknn : (0 : ℤ) ≤ params.sample_step * (k : ℤ) :=
      mul_nonneg (le_of_lt hstep) (by positivity)
    have hshoot : shoot < sample_limit := by
      have := h2 0 (by omega)
      simpa using this
    have hstep1 := trace_sample_oracle_off_full sc params params.sample_step st hoff
      (le_of_lt hstep) (by push_cast at hcap ⊢; linarith)
    have hce : checkEnd (trace_sample sc params params.sample_step st) params
        (sc.secondsAt (trace_sample sc params params.sample_step st).sample_count)
        = false := checkEnd_oracle_off _ _ _ hstep1.2.1
    have hrec := ih fuel (shoot + params.sample_step)
      (trace_sample sc params params.sample_step st) hstep1.2.1 hstep1.2.2
      (by push_cast at h1 ⊢; linarith)
      (by
        intro j hj
        have := h2 (j + 1) (by omega)
        push_cast at this ⊢
        linarith)
      (by
        rw [hstep1.1]
        push_cast at hcap ⊢
        linarith)
      (by omega)
    obtain ⟨st', hloop, hsam⟩ := hrec
    refine ⟨st', ?_, ?_⟩
    · unfold tuq_loop
      rw [if_pos ⟨lt_of_le_of_lt hq htarget, hshoot⟩, if_neg (by rw [hce]; simp), hloop]
      congr 1
      push_cast
      ring_nf
    · rw [hsam, hstep1.1]
      push_cast
      ring

/-- C9: the sample-limited `trace_until_quality(state, scene, camera, ij,
params, q, sample_limit)` always issues one initial `sample_step` chunk
before testing either the quality threshold or the limit, and then counts
whole chunks against `sample_limit`.  In the oracle-off regime with an
unreachable quality target and no `max_samples` interference, the run takes
exactly `sample_step * K` samples where `K ≥ 1` is minimal with
`sample_step * K ≥ sample_limit`: the counted total reaches the smallest
multiple of `sample_step` at or above `sample_limit` (so a pixel receives up
to `sample_step` new samples even when `sample_limit ≤ sample_step` or
`sample_limit ≤ 0`, where `K = 1`), rather than stopping exactly at
`sample_limit`. -/
theorem trace_until_quality_chunks (sc : scenario) (params : adp_params)
    (q : ℚ) (sample_limit : ℤ) (fuel : ℕ) (st : tstate)
    (h1 : st.stop = false) (h2 : params.desired_spp = 0)
    (h3 : params.desired_seconds = 0) (h4 : ¬ params.desired_q ≤ st.min_q)
    (hstep : 0 < params.sample_step) (htarget : 10 < q)
    (hcap : (st.px.actual.samples : ℤ) + max sample_limit 0 + params.sample_step
      ≤ params.max_samples)
    (hfuel : sample_limit.toNat + 2 ≤ fuel) :
    ∃ (st' : tstate) (K : ℕ), 1 ≤ K
      ∧ trace_until_quality sc params q sample_limit fuel st
          = some (st', params.sample_step * K)
      ∧ (st'.px.actual.samples : ℤ)
          = (st.px.actual.samples : ℤ) + params.sample_step * K
      ∧ sample_limit ≤ params.sample_step * K
      ∧ ∀ m : ℕ, 1 ≤ m → sample_limit ≤ params.sample_step * m → K ≤ m := by
  have hoff : oracle_off params st := ⟨h1, h2, h3, h4⟩
  have hex : ∃ k : ℕ, sample_limit ≤ params.sample_step * ((k : ℤ) + 1) := by
    refine ⟨sample_limit.toNat, ?_⟩
    have hb : (sample_limit : ℤ) ≤ (sample_limit.toNat : ℤ) + 1 := by omega
    have hm : ((sample_limit.toNat : ℤ) + 1) * 1
        ≤ ((sample_limit.toNat : ℤ) + 1) * params.sample_step :=
      mul_le_mul_of_nonneg_left (by omega) (by positivity)
    calc sample_limit ≤ (sample_limit.toNat : ℤ) + 1 := hb
      _ = ((sample_limit.toNat : ℤ) + 1) * 1 := by ring
      _ ≤ ((sample_limit.toNat : ℤ) + 1) * params.sample_step := hm
      _ = params.sample_step * ((sample_limit.toNat : ℤ) + 1) := by ring
  set kf := Nat.find hex with hkf
  have hfind : sample_limit ≤ params.sample_step * ((kf : ℤ) + 1) := Nat.find_spec hex
  have hfind_min : ∀ j : ℕ, j < kf →
      ¬ sample_limit ≤ params.sample_step * ((j : ℤ) + 1) :=
    fun j hj => Nat.find_min hex hj
  have hkf_le : kf ≤ sample_limit.toNat := Nat.find_min' hex (by
    have hb : (sample_limit : ℤ) ≤ (sample_limit.toNat : ℤ) + 1 := by omega
    have hm : ((sample_limit.toNat : ℤ) + 1) * 1
        ≤ ((sample_limit.toNat : ℤ) + 1) * params.sample_step :=
      mul_le_mul_of_nonneg_left (by omega) (by positivity)
    calc sample_limit ≤ (sample_limit.toNat : ℤ) + 1 := hb
      _ = ((sample_limit.toNat : ℤ) + 1) * 1 := by ring
      _ ≤ ((sample_limit.toNat : ℤ) + 1) * params.sample_step := hm
      _ = params.sample_step * ((sample_limit.toNat : ℤ) + 1) := by ring)
  have hfirst := trace_sample_oracle_off_full sc params params.sample_step st hoff
    (le_of_lt hstep) (by
      have : (0 : ℤ) ≤ max sample_limit 0 := le_max_right _ _
      linarith)
  have hce : checkEnd (trace_sample sc params params.sample_step st) params
      (sc.secondsAt (trace_sample sc params params.sample_step st).sample_count)
      = false := checkEnd_oracle_off _ _ _ hfirst.2.1
  have hcapk : ((trace_sample sc params params.sample_step st).px.actual.samples : ℤ)
      + params.sample_step * (kf : ℤ) ≤ params.max_samples := by
    rw [hfirst.1]
    rcases Nat.eq_zero_or_pos kf with hk0 | hkpos
    · rw [hk0]
      push_cast
      have : (0 : ℤ) ≤ max sample_limit 0 := le_max_right _ _
      linarith
    · have hlt := hfind_min (kf - 1) (by omega)
      push_neg at hlt
      have hcast : ((kf - 1 : ℕ) : ℤ) + 1 = (kf : ℤ) := by omega
      rw [hcast] at hlt
      have hnn : (0 : ℤ) ≤ params.sample_step * (kf : ℤ) :=
        mul_nonneg (le_of_lt hstep) (by positivity)
      have hmaxl : sample_limit ≤ max sample_limit 0 := le_max_left _ _
      linarith
  have hloop := tuq_loop_spec sc params q sample_limit hstep htarget kf fuel
    params.sample_step (trace_sample sc params params.sample_step st)
    hfirst.2.1 hfirst.2.2
    (by linarith [hfind])
    (by
      intro j hj
      have := hfind_min j hj
      push_neg at this
      linarith)
    hcapk
    (by omega)
  obtain ⟨st', hrun, hsam⟩ := hloop
  refine ⟨st', kf + 1, by omega, ?_, ?_, ?_, ?_⟩
  · unfold trace_until_quality
    rw [hce]
    simp only [Bool.false_eq_true, if_false]
    rw [hrun]
    congr 1
    push_cast
    ring_nf
  · rw [hsam, hfirst.1]
    push_cast
    ring
  · push_cast
    linarith [hfind]
  · intro m hm hlim
    by_contra hcon
    push_neg at hcon
    have := hfind_min (m - 1) (by omega)
    push_neg at this
    have hcast : ((m - 1 : ℕ) : ℤ) + 1 = (m : ℤ) := by omega
    rw [hcast] at this
    linarith

theorem trace_until_quality_chunks_witness :
    (st0.stop = false ∧ params_off.desired_spp = 0 ∧ params_off.desired_seconds = 0
      ∧ ¬ params_off.desired_q ≤ st0.min_q ∧ 0 < params_off.sample_step
      ∧ (10 : ℚ) < 1000
      ∧ (st0.px.actual.samples : ℤ) + max 5 0 + params_off.sample_step
          ≤ params_off.max_samples
      ∧ (5 : ℤ).toNat + 2 ≤ 10)
    ∧ (∃ (st' : tstate) (K : ℕ), 1 ≤ K
        ∧ trace_until_quality sc_const params_off 1000 5 10 st0
            = some (st', params_off.sample_step * K)
        ∧ (st'.px.actual.samples : ℤ)
            = (st0.px.actual.samples : ℤ) + params_off.sample_step * K
        ∧ (5 : ℤ) ≤ params_off.sample_step * K
        ∧ ∀ m : ℕ, 1 ≤ m → (5 : ℤ) ≤ params_off.sample_step * m → K ≤ m) :=
  ⟨⟨by decide, by decide, by decide, by decide, by decide, by decide, by decide, by decide⟩,
    trace_until_quality_chunks sc_const params_off 1000 5 10 st0
      (by decide) (by decide) (by decide) (by decide) (by decide) (by decide)
      (by decide) (by decide)⟩

end YoctoTraceAdp
